import Mathlib

/-! ## Definitions -/

/-- Code points of the characters Python's `str.strip()` removes
(the `str.isspace` set of CPython). -/
def pySpaceCodes : List Nat :=
  [0x09, 0x0a, 0x0b, 0x0c, 0x0d, 0x1c, 0x1d, 0x1e, 0x1f, 0x20, 0x85, 0xa0,
   0x1680, 0x2000, 0x2001, 0x2002, 0x2003, 0x2004, 0x2005, 0x2006, 0x2007,
   0x2008, 0x2009, 0x200a, 0x2028, 0x2029, 0x202f, 0x205f, 0x3000]

/-- `c` is whitespace for Python's `str.strip()`. -/
def pyIsSpace (c : Char) : Bool :=
  pySpaceCodes.contains c.toNat

/-- Code points of the line boundaries of Python's `str.splitlines()`. -/
def pyLineBreakCodes : List Nat :=
  [0x0a, 0x0b, 0x0c, 0x0d, 0x1c, 0x1d, 0x1e, 0x85, 0x2028, 0x2029]

/-- `c` is a line boundary for Python's `str.splitlines()`. -/
def isLineBreak (c : Char) : Bool :=
  pyLineBreakCodes.contains c.toNat

/-- Worker for `pySplitlines`: `acc` holds the chars of the current line,
reversed.  A `"\r\n"` pair counts as a single boundary; a trailing
boundary produces no extra empty line. -/
def pySplitlinesAux : List Char → List Char → List (List Char)
  | [], acc => if acc.isEmpty then [] else [acc.reverse]
  | [c], acc =>
    if isLineBreak c then [acc.reverse] else [(c :: acc).reverse]
  | c :: d :: rest, acc =>
    if c = '\r' && d = '\n' then acc.reverse :: pySplitlinesAux rest []
    else if isLineBreak c then acc.reverse :: pySplitlinesAux (d :: rest) []
    else pySplitlinesAux (d :: rest) (c :: acc)

/-- Python's `str.splitlines()`. -/
def pySplitlines (s : List Char) : List (List Char) :=
  pySplitlinesAux s []

/-- Python's `str.lstrip()`. -/
def pyLstrip (s : List Char) : List Char :=
  s.dropWhile pyIsSpace

/-- Python's `str.rstrip()`. -/
def pyRstrip (s : List Char) : List Char :=
  (s.reverse.dropWhile pyIsSpace).reverse

/-- Python's `str.strip()`: whitespace removed from both ends. -/
def pyStrip (s : List Char) : List Char :=
  pyRstrip (pyLstrip s)

/-- Python's `sep.join(ls)`. -/
def pyJoin (sep : List Char) : List (List Char) → List Char
  | [] => []
  | [l] => l
  | l :: l2 :: ls => l ++ sep ++ pyJoin sep (l2 :: ls)

/-- `parse_cmd_output` of `paramico_ssh_shell.py`:
`[line.strip() for line in output.splitlines() if line.strip()]`. -/
def parse_cmd_output (output : List Char) : List (List Char) :=
  ((pySplitlines output).filter (fun line => !(pyStrip line).isEmpty)).map pyStrip

/-- A Python exception value, by kind and message.  `otherError` stands
for every kind other than the two the code itself raises. -/
inductive PyError where
  | connectionError (msg : String)
  | runtimeError (msg : String)
  | otherError (msg : String)
deriving DecidableEq, Repr

/-- Python's `str(e)` on an exception: its message. -/
def pyErrMsg : PyError → String
  | .connectionError m => m
  | .runtimeError m => m
  | .otherError m => m

/-- The object state of class `SSHConnection`: the five configuration
fields set by `__init__` and the two nullable paramiko handles, the
handles modelled as abstract identifiers. -/
structure SSHConnection where
  host : String
  username : String
  password : String
  port : Nat
  buffer_size : Nat
  _ssh_client : Option Nat
  _shell : Option Nat
deriving DecidableEq, Repr

/-- `SSHConnection.__init__(host, username, password, port, buffer_size)`:
both handles start as `None`.  The Python defaults are `port=22`,
`buffer_size=4096`. -/
def SSHConnection.init (host username password : String) (port buffer_size : Nat) :
    SSHConnection :=
  ⟨host, username, password, port, buffer_size, none, none⟩

/-- `is_connected` of `SSHConnection`:
`self._ssh_client is not None and self._shell is not None`. -/
def SSHConnection.is_connected (st : SSHConnection) : Bool :=
  st._ssh_client.isSome && st._shell.isSome

/-- Where, if anywhere, the external paramiko calls inside
`SSHConnection.connect` fail.  `connect` first assigns
`self._ssh_client = paramiko.SSHClient()`; any later call
(`set_missing_host_key_policy`, `client.connect`, `invoke_shell`,
`_flush_buffer`, the pagination `send`) may raise.
`ok client shell` means every call succeeded and the fresh handles are
`client` and `shell`; `failAfterClient` means a call raised after
`_ssh_client` was assigned but before `_shell` was; `failAfterShell`
means a call raised after both assignments.  `e` is the raised
exception. -/
inductive ConnectOutcome where
  | ok (client shell : Nat)
  | failAfterClient (client : Nat) (e : PyError)
  | failAfterShell (client shell : Nat) (e : PyError)
deriving DecidableEq, Repr

/-- The environment chose an outcome where all of connect's external
calls succeed. -/
def ConnectOutcome.isOk : ConnectOutcome → Bool
  | .ok _ _ => true
  | _ => false

/-- The result of a method call on an `SSHConnection`: the object state
when the method exits (normally or by raising) and the exception raised,
if any. -/
structure ConnectResult where
  state : SSHConnection
  error : Option PyError
deriving DecidableEq, Repr

/-- Message prefix of the `ConnectionError` raised by `connect`. -/
def sshFailMsgHead : String :=
  "[!] SSH connection failed: "

/-- `SSHConnection.connect`: assigns a fresh client, connects, invokes a
shell, flushes, optionally disables pagination; any exception `e` is
caught and re-raised as `ConnectionError(f"[!] SSH connection failed: {e}")`.
The state reflects exactly the assignments executed before the failure
point. -/
def SSHConnection.connect (st : SSHConnection) (disable_pagination : Bool)
    (o : ConnectOutcome) : ConnectResult :=
  match o with
  | .ok c sh => ⟨{ st with _ssh_client := some c, _shell := some sh }, none⟩
  | .failAfterClient c e =>
    ⟨{ st with _ssh_client := some c },
      some (.connectionError (sshFailMsgHead ++ pyErrMsg e))⟩
  | .failAfterShell c sh e =>
    ⟨{ st with _ssh_client := some c, _shell := some sh },
      some (.connectionError (sshFailMsgHead ++ pyErrMsg e))⟩

/-- `SSHConnection.disconnect`: closes and nulls each handle that is set.
`close()` is modelled as never raising. -/
def SSHConnection.disconnect (st : SSHConnection) : SSHConnection :=
  let st1 := if st._shell.isSome then { st with _shell := none } else st
  if st1._ssh_client.isSome then { st1 with _ssh_client := none } else st1

/-- Message of the `ConnectionError` raised when `reconnect` exhausts its
attempts. -/
def reconnectExhaustedMsg : String :=
  "[!] Reconnection attempts exhausted."

/-- The result of `SSHConnection.reconnect`: final state, raised
exception if any, the number of disconnect-and-connect attempts
performed, and the durations of the `time.sleep` calls of the retry
loop, in order. -/
structure ReconnectResult where
  state : SSHConnection
  error : Option PyError
  attempts : Nat
  sleeps : List Nat
deriving DecidableEq, Repr

/-- Worker for `reconnect`: `attempt` is the 1-based loop counter,
`remaining` the iterations left.  Each iteration disconnects, connects
with outcome `outs attempt`, returns on success, and otherwise sleeps
`retry_interval` and continues; exhaustion raises `ConnectionError`. -/
def SSHConnection.reconnectAux (outs : Nat → ConnectOutcome) (retry_interval : Nat) :
    SSHConnection → Nat → Nat → ReconnectResult
  | st, _, 0 => ⟨st, some (.connectionError reconnectExhaustedMsg), 0, []⟩
  | st, attempt, n + 1 =>
    let r := (st.disconnect).connect false (outs attempt)
    match r.error with
    | none => ⟨r.state, none, 1, []⟩
    | some _ =>
      let rest := SSHConnection.reconnectAux outs retry_interval r.state (attempt + 1) n
      ⟨rest.state, rest.error, rest.attempts + 1, retry_interval :: rest.sleeps⟩

/-- `SSHConnection.reconnect(retry_count, retry_interval)`: up to
`retry_count` iterations of disconnect-then-connect (connect with its
default `disable_pagination=False`), outcome of the `attempt`-th
iteration's connect given by `outs attempt`.  The Python defaults are
`retry_count=3`, `retry_interval=2`. -/
def SSHConnection.reconnect (st : SSHConnection) (outs : Nat → ConnectOutcome)
    (retry_count retry_interval : Nat) : ReconnectResult :=
  SSHConnection.reconnectAux outs retry_interval st 1 retry_count

/-- Where, if anywhere, the external calls inside `send_command` fail
(given the connection check passed).  `ok chunks` means the send and the
whole `recv_ready`/`recv` loop succeeded, receiving `chunks`;
`sendFail` means `self._shell.send` raised (nothing was sent);
`recvFail` means a `recv_ready` or `recv` call raised after the command
was sent. -/
inductive SendOutcome where
  | ok (chunks : List (List Char))
  | sendFail (e : PyError)
  | recvFail (e : PyError)
deriving DecidableEq, Repr

/-- The environment chose an outcome where the send or the receive loop
raises. -/
def SendOutcome.fails : SendOutcome → Bool
  | .ok _ => false
  | .sendFail _ => true
  | .recvFail _ => true

/-- Message of the `ConnectionError` raised by `send_command` on an
inactive connection. -/
def notActiveMsg : String :=
  "SSH connection is not active."

/-- The result of `SSHConnection.send_command`: the object state on
exit, the returned output or raised exception, and the data written to
the shell channel, in order. -/
structure SendResult where
  state : SSHConnection
  result : Except PyError (List Char)
  sent : List (List Char)
deriving Repr

/-- `SSHConnection.send_command(command)`: raises `ConnectionError` if
`is_connected` is false, otherwise sends `command + '\n'`, accumulates
the received chunks and returns `output.strip()`. -/
def SSHConnection.send_command (st : SSHConnection) (command : List Char)
    (o : SendOutcome) : SendResult :=
  if st.is_connected then
    match o with
    | .ok chunks => ⟨st, .ok (pyStrip chunks.flatten), [command ++ ['\n']]⟩
    | .sendFail e => ⟨st, .error e, []⟩
    | .recvFail e => ⟨st, .error e, [command ++ ['\n']]⟩
  else
    ⟨st, .error (.connectionError notActiveMsg), []⟩

/-- Message of the `RuntimeError` raised by `run_cmd` when its loop is
exhausted: `f"[!] Failed to run command after '{retry_count}' retries."`. -/
def runCmdFailMsg (retry_count : Nat) : String :=
  "[!] Failed to run command after \x27" ++ toString retry_count ++ "\x27 retries."

/-- The result of `ShellInterface.run_cmd`: the connection state on
exit, the returned output or raised exception, and the number of
`send_command` attempts performed. -/
structure RunCmdResult where
  state : SSHConnection
  result : Except PyError (List Char)
  sendAttempts : Nat
deriving Repr

/-- Worker for `run_cmd`: `i` is the 0-based loop counter, `remaining`
the iterations left, `retry_count` the original argument (used only in
the exhaustion message).  Each iteration tries
`self.connection.send_command(command)` with outcome `sendOuts i` and
returns its output on success; on failure it calls
`self.connection.reconnect()` (defaults `retry_count=3`,
`retry_interval=2`, connect outcomes `recOuts i`), whose own exception,
if any, propagates out of the loop uncaught. -/
def ShellInterface.runCmdAux (command : List Char) (sendOuts : Nat → SendOutcome)
    (recOuts : Nat → Nat → ConnectOutcome) (retry_count : Nat) :
    SSHConnection → Nat → Nat → RunCmdResult
  | st, _, 0 => ⟨st, .error (.runtimeError (runCmdFailMsg retry_count)), 0⟩
  | st, i, n + 1 =>
    let r := st.send_command command (sendOuts i)
    match r.result with
    | .ok out => ⟨r.state, .ok out, 1⟩
    | .error _ =>
      let rr := (r.state).reconnect (recOuts i) 3 2
      match rr.error with
      | some e => ⟨rr.state, .error e, 1⟩
      | none =>
        let rest := ShellInterface.runCmdAux command sendOuts recOuts retry_count
          rr.state (i + 1) n
        ⟨rest.state, rest.result, rest.sendAttempts + 1⟩

/-- `ShellInterface.run_cmd(command, retry_count)`:
`attempts = 1 if not retry_count else retry_count` (so `retry_count=0`,
being falsy, yields one attempt), then the retry loop above, ending in
`RuntimeError` when the loop exhausts. -/
def ShellInterface.run_cmd (conn : SSHConnection) (command : List Char)
    (retry_count : Nat) (sendOuts : Nat → SendOutcome)
    (recOuts : Nat → Nat → ConnectOutcome) : RunCmdResult :=
  ShellInterface.runCmdAux command sendOuts recOuts retry_count conn 0
    (if retry_count = 0 then 1 else retry_count)

def host0 : String := "192.168.2.184"

def user0 : String := "testuser"

def pass0 : String := "12345"

def oopsMsg : String := "boom"

/-- The connection object the script's main block builds (defaults
`port=22`, `buffer_size=4096`). -/
def conn0 : SSHConnection := SSHConnection.init host0 user0 pass0 22 4096

/-- A connected state. -/
def connUp : SSHConnection := { conn0 with _ssh_client := some 1, _shell := some 2 }

def cmd0 : List Char := "uname -a".toList

/-- An environment in which every connect attempt fails at `client.connect`. -/
def outsAllFail : Nat → ConnectOutcome :=
  fun i => ConnectOutcome.failAfterClient i (PyError.otherError oopsMsg)

/-- An environment in which connect attempts 1 fails and attempts from 2 on succeed. -/
def outsSucceedFrom2 : Nat → ConnectOutcome :=
  fun i => if 2 ≤ i then ConnectOutcome.ok i i
    else ConnectOutcome.failAfterClient i (PyError.otherError oopsMsg)

/-- An environment in which every `send` call raises. -/
def sendAllFail : Nat → SendOutcome :=
  fun _ => SendOutcome.sendFail (PyError.otherError oopsMsg)

/-- An environment in which every external connect call succeeds. -/
def recAllOk : Nat → Nat → ConnectOutcome :=
  fun i j => ConnectOutcome.ok i j

/-- The spec's invariant on the two nullable handles: both null or both
non-null. -/
def handleInv (st : SSHConnection) : Prop :=
  (st._ssh_client = none ∧ st._shell = none) ∨
  (st._ssh_client ≠ none ∧ st._shell ≠ none)

/-- C2 as stated: every operation of `SSHConnection` (connect,
reconnect, send_command, disconnect) preserves the handle invariant,
including when the operation exits by raising an exception. -/
def allOpsPreserveHandleInv : Prop :=
  ∀ st : SSHConnection, handleInv st →
    (∀ d o, handleInv ((st.connect d o).state)) ∧
    (∀ outs rc ri, handleInv ((st.reconnect outs rc ri).state)) ∧
    (∀ cmd o, handleInv ((st.send_command cmd o).state)) ∧
    handleInv st.disconnect

/-- C5 as stated: for every `retry_count ≥ 0`, when every send attempt
fails (and the intervening reconnects succeed), `run_cmd` performs
exactly `retry_count` send-command attempts before giving up and
raising. -/
def runCmdExactlyRetryCountAttempts : Prop :=
  ∀ (retry_count : Nat) (st : SSHConnection) (cmd : List Char)
    (sendOuts : Nat → SendOutcome) (recOuts : Nat → Nat → ConnectOutcome),
    (∀ i, (sendOuts i).fails = true) →
    (∀ i j, (recOuts i j).isOk = true) →
    ( ShellInterface.run_cmd st cmd retry_count sendOuts recOuts).sendAttempts =
      retry_count

/-! ## Theorems -/

theorem dropWhile_head_false {p : Char → Bool} :
    ∀ {s t : List Char} {a : Char}, s.dropWhile p = a :: t → p a = false := by
  intro s
  induction s with
  | nil => intro t a h; simp [List.dropWhile] at h
  | cons c s' ih =>
    intro t a h
    rw [List.dropWhile_cons] at h
    by_cases hc : p c = true
    · exact ih (by simpa [hc] using h)
    · simp [hc] at h
      simp [h.1 ▸ (Bool.not_eq_true _).mp hc]

theorem mem_dropWhile {p : Char → Bool} {s : List Char} {c : Char}
    (h : c ∈ s.dropWhile p) : c ∈ s := by
  have hs := List.takeWhile_append_dropWhile (p := p) (l := s)
  rw [← hs]
  exact List.mem_append_right _ h

theorem mem_pyStrip {s : List Char} {c : Char} (h : c ∈ pyStrip s) : c ∈ s := by
  unfold pyStrip pyRstrip pyLstrip at h
  rw [List.mem_reverse] at h
  have h1 := mem_dropWhile h
  rw [List.mem_reverse] at h1
  exact mem_dropWhile h1

/-- `pyLstrip s` is a prefix-extension shape: `pyStrip s` followed by the
trailing whitespace that `pyRstrip` removed. -/
theorem pyLstrip_eq_pyStrip_append (s : List Char) :
    ∃ w, pyLstrip s = pyStrip s ++ w := by
  refine ⟨((pyLstrip s).reverse.takeWhile pyIsSpace).reverse, ?_⟩
  have hs := List.takeWhile_append_dropWhile (p := pyIsSpace) (l := (pyLstrip s).reverse)
  have h2 := congrArg List.reverse hs
  simp only [List.reverse_append, List.reverse_reverse] at h2
  simp only [pyStrip, pyRstrip]
  exact h2.symm

theorem pyStrip_head_false {s t : List Char} {a : Char}
    (h : pyStrip s = a :: t) : pyIsSpace a = false := by
  obtain ⟨w, hw⟩ := pyLstrip_eq_pyStrip_append s
  rw [h] at hw
  exact dropWhile_head_false (p := pyIsSpace) (s := s) hw

theorem pyStrip_last_false {s t : List Char} {a : Char}
    (h : (pyStrip s).reverse = a :: t) : pyIsSpace a = false := by
  have : (pyStrip s).reverse = (pyLstrip s).reverse.dropWhile pyIsSpace := by
    simp [pyStrip, pyRstrip]
  rw [this] at h
  exact dropWhile_head_false h

theorem pyStrip_idem (s : List Char) : pyStrip (pyStrip s) = pyStrip s := by
  have hl : pyLstrip (pyStrip s) = pyStrip s := by
    cases h : pyStrip s with
    | nil => rfl
    | cons a t =>
      have ha := pyStrip_head_false h
      unfold pyLstrip
      rw [List.dropWhile_cons]
      simp [ha]
  have hr : pyRstrip (pyStrip s) = pyStrip s := by
    cases h : (pyStrip s).reverse with
    | nil =>
      have : pyStrip s = [] := by simpa using congrArg List.reverse h
      rw [this]; rfl
    | cons a t =>
      have ha := pyStrip_last_false h
      unfold pyRstrip
      rw [h, List.dropWhile_cons]
      simp [ha, ← h]
  rw [pyStrip]
  rw [hl, hr]

theorem cr_isLineBreak : isLineBreak '\r' = true := by decide

theorem nl_isLineBreak : isLineBreak '\n' = true := by decide

/-- Every line produced by `pySplitlinesAux` is free of line boundaries,
provided the accumulator is. -/
theorem pySplitlinesAux_breakFree :
    ∀ (s acc : List Char), (∀ c ∈ acc, isLineBreak c = false) →
      ∀ l ∈ pySplitlinesAux s acc, ∀ c ∈ l, isLineBreak c = false := by
  intro s acc
  induction s, acc using pySplitlinesAux.induct with
  | case1 acc h =>
    intro _ l hl
    simp [pySplitlinesAux, h] at hl
  | case2 acc h =>
    intro hacc l hl c hc
    rw [pySplitlinesAux, if_neg h] at hl
    simp at hl
    subst hl
    exact hacc c (by simpa using hc)
  | case3 c acc h =>
    intro hacc l hl d hd
    simp [pySplitlinesAux, h] at hl
    subst hl
    exact hacc d (by simpa using hd)
  | case4 c acc h =>
    intro hacc l hl d hd
    simp [pySplitlinesAux, if_neg h] at hl
    subst hl
    simp at hd
    rcases hd with hd | hd
    · exact hacc d hd
    · subst hd; simpa using h
  | case5 c d rest acc h ih =>
    intro hacc l hl e he
    rw [pySplitlinesAux, if_pos h] at hl
    rcases List.mem_cons.mp hl with hl | hl
    · subst hl; exact hacc e (by simpa using he)
    · exact ih (by simp) l hl e he
  | case6 c d rest acc h1 h2 ih =>
    intro hacc l hl e he
    rw [pySplitlinesAux, if_neg h1, if_pos h2] at hl
    rcases List.mem_cons.mp hl with hl | hl
    · subst hl; exact hacc e (by simpa using he)
    · exact ih (by simp) l hl e he
  | case7 c d rest acc h1 h2 ih =>
    intro hacc l hl e he
    rw [pySplitlinesAux, if_neg h1, if_neg h2] at hl
    refine ih ?_ l hl e he
    intro x hx
    rcases List.mem_cons.mp hx with hx | hx
    · subst hx; simpa using h2
    · exact hacc x hx

theorem mem_pySplitlines_breakFree {s l : List Char} (hl : l ∈ pySplitlines s) :
    ∀ c ∈ l, isLineBreak c = false :=
  pySplitlinesAux_breakFree s [] (by simp) l hl

/-- Consuming a boundary-free block just moves it into the accumulator. -/
theorem pySplitlinesAux_append (l : List Char) (hl : ∀ c ∈ l, isLineBreak c = false) :
    ∀ (s acc : List Char), pySplitlinesAux (l ++ s) acc = pySplitlinesAux s (l.reverse ++ acc) := by
  induction l with
  | nil => simp
  | cons x l' ih =>
    intro s acc
    have hx : isLineBreak x = false := hl x (by simp)
    have hl' : ∀ c ∈ l', isLineBreak c = false := fun c hc => hl c (by simp [hc])
    have hxcr : ¬x = '\r' := by
      intro hcr
      rw [hcr, cr_isLineBreak] at hx
      exact Bool.true_eq_false.mp hx
    cases hls : l' ++ s with
    | nil =>
      rcases List.append_eq_nil.mp hls with ⟨he1, he2⟩
      subst he1; subst he2
      simp [pySplitlinesAux, hx]
    | cons y t =>
      have step : pySplitlinesAux (x :: y :: t) acc = pySplitlinesAux (y :: t) (x :: acc) := by
        rw [pySplitlinesAux, if_neg (by simp [hxcr]), if_neg (by simp [hx])]
      calc pySplitlinesAux ((x :: l') ++ s) acc
          = pySplitlinesAux (y :: t) (x :: acc) := by rw [List.cons_append, hls, step]
        _ = pySplitlinesAux (l' ++ s) (x :: acc) := by rw [hls]
        _ = pySplitlinesAux s (l'.reverse ++ (x :: acc)) := ih hl' s (x :: acc)
        _ = pySplitlinesAux s ((x :: l').reverse ++ acc) := by simp

/-- A single `'\n'` boundary flushes the accumulator as one line. -/
theorem pySplitlinesAux_newline (s acc : List Char) :
    pySplitlinesAux ('\n' :: s) acc = acc.reverse :: pySplitlinesAux s [] := by
  cases s with
  | nil => simp [pySplitlinesAux, nl_isLineBreak]
  | cons d t =>
    rw [pySplitlinesAux, if_neg (by simp), if_pos nl_isLineBreak]

/-- Splitting a `'\n'`-join of non-empty boundary-free blocks returns
exactly the blocks. -/
theorem pySplitlines_pyJoin (ls : List (List Char))
    (h : ∀ l ∈ ls, l ≠ [] ∧ ∀ c ∈ l, isLineBreak c = false) :
    pySplitlines (pyJoin ['\n'] ls) = ls := by
  induction ls with
  | nil => rfl
  | cons l ls' ih =>
    obtain ⟨hne, hbf⟩ := h l (by simp)
    cases ls' with
    | nil =>
      show pySplitlinesAux (pyJoin ['\n'] [l]) [] = [l]
      have : pyJoin ['\n'] [l] = l ++ [] := by simp [pyJoin]
      rw [this, pySplitlinesAux_append l hbf [] []]
      simp [pySplitlinesAux, List.isEmpty_eq_true, hne]
    | cons l2 ls'' =>
      have hjoin : pyJoin ['\n'] (l :: l2 :: ls'') = l ++ ('\n' :: pyJoin ['\n'] (l2 :: ls'')) := by
        simp [pyJoin]
      show pySplitlinesAux (pyJoin ['\n'] (l :: l2 :: ls'')) [] = l :: l2 :: ls''
      rw [hjoin, pySplitlinesAux_append l hbf _ [], pySplitlinesAux_newline]
      simp only [List.append_nil, List.reverse_reverse]
      have ih2 := ih (fun x hx => h x (by simp [hx]))
      rw [show pySplitlinesAux (pyJoin ['\n'] (l2 :: ls'')) [] = pySplitlines (pyJoin ['\n'] (l2 :: ls'')) from rfl, ih2]

theorem mem_parse_cmd_output {s l : List Char} (hl : l ∈ parse_cmd_output s) :
    l ≠ [] ∧ pyStrip l = l ∧ ∀ c ∈ l, isLineBreak c = false := by
  unfold parse_cmd_output at hl
  rcases List.mem_map.mp hl with ⟨line, hline, rfl⟩
  rcases List.mem_filter.mp hline with ⟨hmem, hcond⟩
  refine ⟨?_, pyStrip_idem line, ?_⟩
  · intro hn
    rw [hn] at hcond
    simp at hcond
  · intro c hc
    exact mem_pySplitlines_breakFree hmem c (mem_pyStrip hc)

/-- C1: `parse_cmd_output s` is exactly the lines of `s`, each stripped of
leading and trailing whitespace, with blank lines removed, in order; every
returned entry is non-empty and has no surrounding whitespace. -/
theorem parse_cmd_output_correct (s : List Char) :
    parse_cmd_output s = ((pySplitlines s).map pyStrip).filter (fun l => !l.isEmpty) ∧
    ∀ l ∈ parse_cmd_output s, l ≠ [] ∧ pyStrip l = l := by
  constructor
  · unfold parse_cmd_output
    rw [List.filter_map]
    rfl
  · intro l hl
    have h := mem_parse_cmd_output hl
    exact ⟨h.1, h.2.1⟩

theorem parse_cmd_output_correct_witness :
    ("hello".toList) ≠ [] ∧ pyStrip (("hello".toList)) = ("hello".toList) :=
  (parse_cmd_output_correct (("  hello \nx".toList))).2 (("hello".toList)) (by decide)

/-- C10: re-parsing the newline-join of a parse result is the identity:
`parse_cmd_output (pyJoin "\n" (parse_cmd_output s)) = parse_cmd_output s`. -/
theorem parse_cmd_output_stable (s : List Char) :
    parse_cmd_output (pyJoin ['\n'] (parse_cmd_output s)) = parse_cmd_output s := by
  have hprops : ∀ l ∈ parse_cmd_output s, l ≠ [] ∧ ∀ c ∈ l, isLineBreak c = false := by
    intro l hl
    have h := mem_parse_cmd_output hl
    exact ⟨h.1, h.2.2⟩
  conv_lhs => rw [parse_cmd_output]
  rw [pySplitlines_pyJoin _ hprops]
  have hfilter : (parse_cmd_output s).filter (fun line => !(pyStrip line).isEmpty) =
      parse_cmd_output s := by
    apply List.filter_eq_self.mpr
    intro l hl
    have h := mem_parse_cmd_output hl
    obtain ⟨a, t, rfl⟩ := List.exists_cons_of_ne_nil h.1
    simp [h.2.1]
  rw [hfilter]
  calc (parse_cmd_output s).map pyStrip
      = (parse_cmd_output s).map id :=
        List.map_congr_left (fun l hl => (mem_parse_cmd_output hl).2.1)
    _ = parse_cmd_output s := List.map_id _

theorem disconnect_eq (st : SSHConnection) :
    st.disconnect = { st with _ssh_client := none, _shell := none } := by
  obtain ⟨h, u, p, po, b, cl, sh⟩ := st
  unfold SSHConnection.disconnect
  cases sh <;> cases cl <;> simp

theorem send_command_state (st : SSHConnection) (cmd : List Char) (o : SendOutcome) :
    (st.send_command cmd o).state = st := by
  unfold SSHConnection.send_command
  by_cases h : st.is_connected = true
  · rw [if_pos h]; cases o <;> rfl
  · rw [if_neg h]

/-- `connect` returns normally exactly when its outcome is a success. -/
theorem connect_error_none_iff (st : SSHConnection) (d : Bool) (o : ConnectOutcome) :
    (st.connect d o).error = none ↔ o.isOk = true := by
  cases o <;> simp [SSHConnection.connect, ConnectOutcome.isOk]

/-- C2 counterexample: from the freshly initialised (disconnected)
object, a `connect` whose `client.connect` call raises exits with
`_ssh_client` non-null and `_shell` null: the invariant does not survive
exceptional exit of `connect`. -/
theorem connect_breaks_handleInv : ¬ allOpsPreserveHandleInv := by
  intro h
  have h0 : handleInv conn0 := Or.inl ⟨rfl, rfl⟩
  have h1 := (h conn0 h0).1 false (ConnectOutcome.failAfterClient 0 (PyError.otherError oopsMsg))
  rcases h1 with ⟨hc, _⟩ | ⟨_, hs⟩
  · simp [SSHConnection.connect] at hc
  · exact hs rfl

/-- A `reconnect` that returns normally ends in a successful `connect`,
so its final state satisfies the handle invariant. -/
theorem reconnectAux_error_none_inv (outs : Nat → ConnectOutcome) (ri : Nat) :
    ∀ (n : Nat) (st : SSHConnection) (a : Nat),
      (SSHConnection.reconnectAux outs ri st a n).error = none →
      handleInv ((SSHConnection.reconnectAux outs ri st a n).state) := by
  intro n
  induction n with
  | zero =>
    intro st a h
    simp [SSHConnection.reconnectAux] at h
  | succ n ih =>
    intro st a h
    cases hout : outs a with
    | ok c sh =>
      simp only [SSHConnection.reconnectAux, hout, SSHConnection.connect]
      exact Or.inr ⟨by simp, by simp⟩
    | failAfterClient c e =>
      simp only [SSHConnection.reconnectAux, hout, SSHConnection.connect] at h ⊢
      exact ih _ _ h
    | failAfterShell c sh e =>
      simp only [SSHConnection.reconnectAux, hout, SSHConnection.connect] at h ⊢
      exact ih _ _ h

/-- C2 amended: `disconnect` and `send_command` preserve the handle
invariant in every case (also on exceptional exit), and `connect` and
`reconnect` preserve it whenever they return normally; only `connect`
(and `reconnect`, which ends in a failing `connect`) exiting by an
exception can break it. -/
theorem handleInv_preserved_amended :
    (∀ st : SSHConnection, handleInv st.disconnect) ∧
    (∀ (st : SSHConnection) cmd o, handleInv st →
      handleInv ((st.send_command cmd o).state)) ∧
    (∀ (st : SSHConnection) d o, (st.connect d o).error = none →
      handleInv ((st.connect d o).state)) ∧
    (∀ (st : SSHConnection) outs rc ri, (st.reconnect outs rc ri).error = none →
      handleInv ((st.reconnect outs rc ri).state)) := by
  refine ⟨?_, ?_, ?_, ?_⟩
  · intro st
    rw [disconnect_eq]
    exact Or.inl ⟨rfl, rfl⟩
  · intro st cmd o h
    rw [send_command_state]
    exact h
  · intro st d o h
    cases o with
    | ok c sh => exact Or.inr ⟨by simp [SSHConnection.connect], by simp [SSHConnection.connect]⟩
    | failAfterClient c e => simp [SSHConnection.connect] at h
    | failAfterShell c sh e => simp [SSHConnection.connect] at h
  · intro st outs rc ri h
    exact reconnectAux_error_none_inv outs ri rc st 1 h

theorem handleInv_preserved_amended_witness :
    handleInv ((conn0.connect false (ConnectOutcome.ok 1 2)).state) ∧
    handleInv conn0.disconnect :=
  ⟨handleInv_preserved_amended.2.2.1 conn0 false (ConnectOutcome.ok 1 2) rfl,
   handleInv_preserved_amended.1 conn0⟩

/-- C4: in every state, `is_connected` returns true exactly when both
`_ssh_client` and `_shell` are non-null. -/
theorem is_connected_correct (st : SSHConnection) :
    st.is_connected = true ↔ (st._ssh_client ≠ none ∧ st._shell ≠ none) := by
  unfold SSHConnection.is_connected
  cases st._ssh_client <;> cases st._shell <;> simp

theorem is_connected_correct_witness : connUp.is_connected = true :=
  (is_connected_correct connUp).mpr ⟨by decide, by decide⟩

/-- C6: whatever step inside `connect` fails, and whatever the kind of
the underlying exception, `connect` either returns normally or raises a
`ConnectionError`; it never lets an error of another kind escape. -/
theorem connect_error_kind (st : SSHConnection) (d : Bool) (o : ConnectOutcome) :
    (st.connect d o).error = none ∨
    ∃ m, (st.connect d o).error = some (PyError.connectionError m) := by
  cases o with
  | ok c sh => exact Or.inl rfl
  | failAfterClient c e => exact Or.inr ⟨sshFailMsgHead ++ pyErrMsg e, rfl⟩
  | failAfterShell c sh e => exact Or.inr ⟨sshFailMsgHead ++ pyErrMsg e, rfl⟩

/-- C8: on a state where `is_connected` is false, `send_command` raises
`ConnectionError("SSH connection is not active.")`, sends nothing, and
leaves the object state (handles and configuration) unchanged. -/
theorem send_command_not_connected (st : SSHConnection) (cmd : List Char)
    (o : SendOutcome) (h : st.is_connected = false) :
    st.send_command cmd o =
      ⟨st, Except.error (PyError.connectionError notActiveMsg), []⟩ := by
  unfold SSHConnection.send_command
  rw [if_neg (by simp [h])]

theorem send_command_not_connected_witness :
    conn0.send_command cmd0 (SendOutcome.ok []) =
      ⟨conn0, Except.error (PyError.connectionError notActiveMsg), []⟩ :=
  send_command_not_connected conn0 cmd0 (SendOutcome.ok []) rfl

/-- C9: `disconnect` never raises (it is a total function of the state),
always leaves both handles null, and is idempotent: a second consecutive
call changes nothing. -/
theorem disconnect_idempotent (st : SSHConnection) :
    (st.disconnect)._ssh_client = none ∧ (st.disconnect)._shell = none ∧
    st.disconnect.disconnect = st.disconnect := by
  simp [disconnect_eq]

theorem reconnectAux_attempts_le (outs : Nat → ConnectOutcome) (ri : Nat) :
    ∀ (n : Nat) (st : SSHConnection) (a : Nat),
      (SSHConnection.reconnectAux outs ri st a n).attempts ≤ n := by
  intro n
  induction n with
  | zero => intro st a; simp [SSHConnection.reconnectAux]
  | succ n ih =>
    intro st a
    cases hout : outs a with
    | ok c sh =>
      simp only [SSHConnection.reconnectAux, hout, SSHConnection.connect]
      omega
    | failAfterClient c e =>
      simp only [SSHConnection.reconnectAux, hout, SSHConnection.connect]
      have := ih (((st.disconnect).connect false (outs a)).state) (a + 1)
      simp only [hout, SSHConnection.connect] at this
      omega
    | failAfterShell c sh e =>
      simp only [SSHConnection.reconnectAux, hout, SSHConnection.connect]
      have := ih (((st.disconnect).connect false (outs a)).state) (a + 1)
      simp only [hout, SSHConnection.connect] at this
      omega

theorem reconnectAux_first_success (outs : Nat → ConnectOutcome) (ri : Nat) :
    ∀ (n : Nat) (st : SSHConnection) (a i : Nat), a ≤ i → i < a + n →
      (outs i).isOk = true →
      (∀ j, a ≤ j → j < i → (outs j).isOk = false) →
      (SSHConnection.reconnectAux outs ri st a n).attempts = i - a + 1 ∧
      (SSHConnection.reconnectAux outs ri st a n).error = none := by
  intro n
  induction n with
  | zero => intro st a i h1 h2; omega
  | succ n ih =>
    intro st a i h1 h2 hok hfail
    rcases Nat.eq_or_lt_of_le h1 with rfl | hlt
    · cases hout : outs a with
      | ok c sh =>
        simp only [SSHConnection.reconnectAux, hout, SSHConnection.connect]
        exact ⟨by omega, trivial⟩
      | failAfterClient c e => rw [hout] at hok; simp [ConnectOutcome.isOk] at hok
      | failAfterShell c sh e => rw [hout] at hok; simp [ConnectOutcome.isOk] at hok
    · have hafail := hfail a (le_refl a) hlt
      have hrec := ih (((st.disconnect).connect false (outs a)).state) (a + 1) i hlt
        (by omega) hok (fun j hj1 hj2 => hfail j (by omega) hj2)
      cases hout : outs a with
      | ok c sh => rw [hout] at hafail; simp [ConnectOutcome.isOk] at hafail
      | failAfterClient c e =>
        simp only [SSHConnection.reconnectAux, hout, SSHConnection.connect]
        simp only [hout, SSHConnection.connect] at hrec
        obtain ⟨ha, he⟩ := hrec
        exact ⟨by omega, he⟩
      | failAfterShell c sh e =>
        simp only [SSHConnection.reconnectAux, hout, SSHConnection.connect]
        simp only [hout, SSHConnection.connect] at hrec
        obtain ⟨ha, he⟩ := hrec
        exact ⟨by omega, he⟩

theorem reconnectAux_all_fail (outs : Nat → ConnectOutcome) (ri : Nat) :
    ∀ (n : Nat) (st : SSHConnection) (a : Nat),
      (∀ j, a ≤ j → j < a + n → (outs j).isOk = false) →
      (SSHConnection.reconnectAux outs ri st a n).attempts = n ∧
      (SSHConnection.reconnectAux outs ri st a n).error =
        some (PyError.connectionError reconnectExhaustedMsg) ∧
      (SSHConnection.reconnectAux outs ri st a n).sleeps = List.replicate n ri := by
  intro n
  induction n with
  | zero => intro st a _; exact ⟨rfl, rfl, rfl⟩
  | succ n ih =>
    intro st a hfail
    have hafail := hfail a (le_refl a) (by omega)
    have hrec := ih (((st.disconnect).connect false (outs a)).state) (a + 1)
      (fun j hj1 hj2 => hfail j (by omega) (by omega))
    cases hout : outs a with
    | ok c sh => rw [hout] at hafail; simp [ConnectOutcome.isOk] at hafail
    | failAfterClient c e =>
      simp only [SSHConnection.reconnectAux, hout, SSHConnection.connect]
      simp only [hout, SSHConnection.connect] at hrec
      refine ⟨by omega, hrec.2.1, ?_⟩
      rw [hrec.2.2, List.replicate_succ]
    | failAfterShell c sh e =>
      simp only [SSHConnection.reconnectAux, hout, SSHConnection.connect]
      simp only [hout, SSHConnection.connect] at hrec
      refine ⟨by omega, hrec.2.1, ?_⟩
      rw [hrec.2.2, List.replicate_succ]

/-- C3: `reconnect` performs at most `retry_count` disconnect-and-connect
attempts; it stops at the first attempt whose connect succeeds (performing
exactly that many attempts, returning normally), and when every attempt
fails it performs exactly `retry_count` attempts and no more. -/
theorem reconnect_bounded (st : SSHConnection) (outs : Nat → ConnectOutcome)
    (retry_count retry_interval : Nat) :
    (st.reconnect outs retry_count retry_interval).attempts ≤ retry_count ∧
    (∀ i, 1 ≤ i → i ≤ retry_count → (outs i).isOk = true →
      (∀ j, 1 ≤ j → j < i → (outs j).isOk = false) →
      (st.reconnect outs retry_count retry_interval).attempts = i ∧
      (st.reconnect outs retry_count retry_interval).error = none) ∧
    ((∀ j, 1 ≤ j → j ≤ retry_count → (outs j).isOk = false) →
      (st.reconnect outs retry_count retry_interval).attempts = retry_count) := by
  unfold SSHConnection.reconnect
  refine ⟨reconnectAux_attempts_le outs retry_interval retry_count st 1, ?_, ?_⟩
  · intro i h1 h2 hok hfail
    have h := reconnectAux_first_success outs retry_interval retry_count st 1 i h1
      (by omega) hok hfail
    obtain ⟨ha, he⟩ := h
    exact ⟨by omega, he⟩
  · intro hfail
    exact (reconnectAux_all_fail outs retry_interval retry_count st 1
      (fun j hj1 hj2 => hfail j hj1 (by omega))).1

theorem reconnect_bounded_witness :
    (conn0.reconnect outsSucceedFrom2 3 2).attempts = 2 ∧
    (conn0.reconnect outsSucceedFrom2 3 2).error = none :=
  (reconnect_bounded conn0 outsSucceedFrom2 3 2).2.1 2 (by omega) (by omega)
    (by decide)
    (by intro j h1 h2
        have : j = 1 := by omega
        subst this
        decide)

/-- C7: when all `retry_count` attempts fail, `reconnect` raises
`ConnectionError("[!] Reconnection attempts exhausted.")` to its caller,
and every sleep between attempts is the same fixed `retry_interval`. -/
theorem reconnect_exhaustion (st : SSHConnection) (outs : Nat → ConnectOutcome)
    (retry_count retry_interval : Nat)
    (h : ∀ j, 1 ≤ j → j ≤ retry_count → (outs j).isOk = false) :
    (st.reconnect outs retry_count retry_interval).error =
      some (PyError.connectionError reconnectExhaustedMsg) ∧
    (st.reconnect outs retry_count retry_interval).sleeps =
      List.replicate retry_count retry_interval := by
  have hh := reconnectAux_all_fail outs retry_interval retry_count st 1
    (fun j hj1 hj2 => h j hj1 (by omega))
  exact ⟨hh.2.1, hh.2.2⟩

theorem reconnect_exhaustion_witness :
    (conn0.reconnect outsAllFail 2 5).error =
      some (PyError.connectionError reconnectExhaustedMsg) ∧
    (conn0.reconnect outsAllFail 2 5).sleeps = List.replicate 2 5 :=
  reconnect_exhaustion conn0 outsAllFail 2 5 (fun j _ _ => rfl)

theorem send_command_fails (st : SSHConnection) (cmd : List Char) {o : SendOutcome}
    (h : o.fails = true) :
    ∃ e, (st.send_command cmd o).result = Except.error e := by
  unfold SSHConnection.send_command
  by_cases hc : st.is_connected = true
  · rw [if_pos hc]
    cases o with
    | ok chunks => simp [SendOutcome.fails] at h
    | sendFail e => exact ⟨e, rfl⟩
    | recvFail e => exact ⟨e, rfl⟩
  · rw [if_neg hc]
    exact ⟨PyError.connectionError notActiveMsg, rfl⟩

/-- With every external connect call succeeding, `reconnect` (with the
defaults `run_cmd` uses) returns normally. -/
theorem reconnect_ok_of_all_ok (st : SSHConnection) (outs : Nat → ConnectOutcome)
    (ri : Nat) (h : ∀ j, (outs j).isOk = true) :
    (st.reconnect outs 3 ri).error = none :=
  (reconnectAux_first_success outs ri 3 st 1 1 (le_refl 1) (by omega) (h 1)
    (fun j hj1 hj2 => absurd (lt_of_le_of_lt hj1 hj2) (lt_irrefl 1))).2

/-- When every send attempt fails and every reconnect succeeds, the
`run_cmd` loop exhausts all its iterations and ends in the
`RuntimeError`. -/
theorem runCmdAux_all_fail (cmd : List Char) (sendOuts : Nat → SendOutcome)
    (recOuts : Nat → Nat → ConnectOutcome) (rc : Nat)
    (hs : ∀ i, (sendOuts i).fails = true)
    (hr : ∀ i j, (recOuts i j).isOk = true) :
    ∀ (n : Nat) (st : SSHConnection) (i : Nat),
      (ShellInterface.runCmdAux cmd sendOuts recOuts rc st i n).sendAttempts = n ∧
      (ShellInterface.runCmdAux cmd sendOuts recOuts rc st i n).result =
        Except.error (PyError.runtimeError (runCmdFailMsg rc)) := by
  intro n
  induction n with
  | zero => intro st i; exact ⟨rfl, rfl⟩
  | succ n ih =>
    intro st i
    obtain ⟨e, he⟩ := send_command_fails st cmd (hs i)
    have hrec := reconnect_ok_of_all_ok ((st.send_command cmd (sendOuts i)).state)
      (recOuts i) 2 (hr i)
    simp only [ShellInterface.runCmdAux, he, hrec]
    refine ⟨?_, (ih _ _).2⟩
    rw [(ih _ _).1]

/-- C5 counterexample: at `retry_count = 0` (a falsy value in Python)
`run_cmd` sets `attempts = 1` and performs one send attempt, not zero. -/
theorem run_cmd_zero_retries_counterexample : ¬ runCmdExactlyRetryCountAttempts := by
  intro h
  have h0 := h 0 conn0 cmd0 sendAllFail recAllOk (fun i => rfl) (fun i j => rfl)
  have h1 : ( ShellInterface.run_cmd conn0 cmd0 0 sendAllFail recAllOk).sendAttempts = 1 :=
    (runCmdAux_all_fail cmd0 sendAllFail recAllOk 0 (fun i => rfl) (fun i j => rfl)
      1 conn0 0).1
  rw [h0] at h1
  exact absurd h1 (by decide)

/-- C5 amended: when every send attempt fails and every intervening
reconnect succeeds, `run_cmd` performs exactly `retry_count` send
attempts when `retry_count ≥ 1`, but exactly one attempt when
`retry_count = 0` (`attempts = 1 if not retry_count else retry_count`),
and then raises
`RuntimeError(f"[!] Failed to run command after '{retry_count}' retries.")`. -/
theorem run_cmd_attempts (st : SSHConnection) (cmd : List Char)
    (sendOuts : Nat → SendOutcome) (recOuts : Nat → Nat → ConnectOutcome)
    (retry_count : Nat)
    (hs : ∀ i, (sendOuts i).fails = true)
    (hr : ∀ i j, (recOuts i j).isOk = true) :
    ( ShellInterface.run_cmd st cmd retry_count sendOuts recOuts).sendAttempts =
      (if retry_count = 0 then 1 else retry_count) ∧
    ( ShellInterface.run_cmd st cmd retry_count sendOuts recOuts).result =
      Except.error (PyError.runtimeError (runCmdFailMsg retry_count)) := by
  unfold ShellInterface.run_cmd
  exact runCmdAux_all_fail cmd sendOuts recOuts retry_count hs hr
    (if retry_count = 0 then 1 else retry_count) st 0

theorem run_cmd_attempts_witness :
    ( ShellInterface.run_cmd conn0 cmd0 2 sendAllFail recAllOk).sendAttempts = 2 ∧
    ( ShellInterface.run_cmd conn0 cmd0 2 sendAllFail recAllOk).result =
      Except.error (PyError.runtimeError (runCmdFailMsg 2)) :=
  run_cmd_attempts conn0 cmd0 sendAllFail recAllOk 2 (fun i => rfl) (fun i j => rfl)
